import Mathlib

/-!
Verification of the vdev statistics, classification and tree-walk algorithms
of the zpool command-line tool (cmd/zpool).  The definitions below are a
shallow embedding of the C source: unsigned 64-bit counters are modelled as
Nat with explicit reduction modulo 2^64 where the C arithmetic wraps, the
double scaling factor is modelled as a rational number, nvlist vdev trees are
modelled as a mutual inductive rose tree, and fallible lookups return Option.
-/

namespace Zpool

/-- Modulus of unsigned 64-bit arithmetic, 2^64. -/
def U64 : Nat := 18446744073709551616

/-- Unsigned 64-bit subtraction a - b with two's-complement wraparound,
faithful to C uint64_t subtraction for a, b < U64. -/
def u64sub (a b : Nat) : Nat := (a + U64 - b) % U64

/-- Nanoseconds per second, the NANOSEC constant of sys/sysmacros.h. -/
def NANOSEC : Nat := 1000000000

/-- Value of VDEV_STATE_HEALTHY in the vdev_state enumeration of
sys/fs/zfs.h (the last member of the enum). -/
def VDEV_STATE_HEALTHY : Nat := 7

/-- Value of VDEV_INITIALIZE_ACTIVE in sys/fs/zfs.h. -/
def VDEV_INIT_ACTIVE : Nat := 1

/-- Value of VDEV_TRIM_ACTIVE in sys/fs/zfs.h. -/
def VDEV_TRIM_ACTIVE : Nat := 1

/-- Number of entries of the vs_ops and vs_bytes arrays (ZIO_TYPES). -/
abbrev ZIO_TYPES : Nat := 7

/-- Point-in-time statistics snapshot of one vdev: the fields of the C
vdev_stat_t used by the claims.  The source names vs_initialize_state,
vs_initialize_bytes_done and vs_initialize_bytes_est are shortened here to
vs_init_state, vs_init_bytes_done and vs_init_bytes_est. -/
structure VdevStat where
  vs_state : Nat := 0
  vs_read_errors : Nat := 0
  vs_write_errors : Nat := 0
  vs_checksum_errors : Nat := 0
  vs_slow_ios : Nat := 0
  vs_ops : Fin ZIO_TYPES → Nat := fun _ => 0
  vs_bytes : Fin ZIO_TYPES → Nat := fun _ => 0
  vs_timestamp : Nat := 0
  vs_init_state : Nat := 0
  vs_init_bytes_done : Nat := 0
  vs_init_bytes_est : Nat := 0
  vs_trim_state : Nat := 0
  vs_trim_bytes_done : Nat := 0
  vs_trim_bytes_est : Nat := 0
deriving DecidableEq

/-- All-zero statistics record, the zerovs local of print_vdev_stats
(zpool_iostat.c line 962). -/
def zerovs : VdevStat := {}

/-- Baseline statistics chosen by print_vdev_stats, zpool_iostat.c lines
974-979: the old snapshot when one is present, otherwise the all-zero
record zerovs. -/
def iostat_oldvs (oldnv : Option VdevStat) : VdevStat := oldnv.getD zerovs

/-- Scaling-factor computation of print_vdev_stats, zpool_iostat.c lines
1021-1035.  tdelta is the uint64 difference of the two timestamps; the
scale is 1 when the old timestamp is zero and any histogram output is
requested (IOS_ANYHISTO_M), 1 when tdelta is zero, and NANOSEC / tdelta
otherwise (computed in double in the source, modelled as a rational). -/
def iostat_scale (oldvs newvs : VdevStat) (anyhisto : Bool) : ℚ :=
  let tdelta := u64sub newvs.vs_timestamp oldvs.vs_timestamp
  if oldvs.vs_timestamp = 0 ∧ anyhisto = true then 1
  else if tdelta = 0 then 1
  else (NANOSEC : ℚ) / (tdelta : ℚ)

/-- The uint64 timestamp difference used by iostat_scale. -/
def iostat_tdelta (oldvs newvs : VdevStat) : Nat :=
  u64sub newvs.vs_timestamp oldvs.vs_timestamp

/-- The calc_default_iostats function of zpool_iostat.c lines 541-553: copy
newvs and replace each vs_ops and vs_bytes entry by the uint64 difference
new - old. -/
def calc_default_iostats (oldvs newvs : VdevStat) : VdevStat :=
  { newvs with
    vs_ops := fun i => u64sub (newvs.vs_ops i) (oldvs.vs_ops i)
    vs_bytes := fun i => u64sub (newvs.vs_bytes i) (oldvs.vs_bytes i) }

/-- Element-wise uint64 subtraction of an old stat array from a new one, as
performed by calc_and_alloc_stats_ex (zpool_iostat.c lines 642-655): the
result starts as a copy of the new array and the first old.count entries
get the old values subtracted; entries past the old length keep the new
value. -/
def sub_stat_array (old new : List Nat) : List Nat :=
  match old, new with
  | [], ns => ns
  | _, [] => []
  | o :: os, n :: ns => u64sub n o :: sub_stat_array os ns

/-- The calc_and_alloc_stats_ex treatment of one named stat array,
zpool_iostat.c lines 621-660: with no old nvlist the result is a copy of
the new values, otherwise the element-wise uint64 difference. -/
def calc_and_alloc_stats_ex (old : Option (List Nat)) (new : List Nat) :
    List Nat :=
  match old with
  | none => new
  | some o => sub_stat_array o new

/-- Bucket midpoint used by single_histo_average, zpool_iostat.c line 811:
the uint64 value of (1UL << i) + ((1UL << i) / 2). -/
def histo_midpoint (i : Nat) : Nat :=
  ((1 <<< i) % U64 + ((1 <<< i) % U64) / 2) % U64

/-- Accumulation loop of single_histo_average, zpool_iostat.c lines
799-814: starting at bucket index i, fold the histogram adding
histo[i] * midpoint(i) to the total and histo[i] to the count (uint64
arithmetic), skipping zero buckets. -/
def histo_accum : Nat → List Nat → Nat → Nat → Nat × Nat
  | _, [], total, count => (total, count)
  | i, x :: xs, total, count =>
    if x ≠ 0 then
      histo_accum (i + 1) xs ((total + (x * histo_midpoint i) % U64) % U64)
        ((count + x) % U64)
    else
      histo_accum (i + 1) xs total count

/-- The single_histo_average function of zpool_iostat.c lines 793-818:
average latency of a power-of-two histogram, zero when the total count is
zero. -/
def single_histo_average (histo : List Nat) : Nat :=
  let tc := histo_accum 0 histo 0 0
  if tc.2 = 0 then 0 else tc.1 / tc.2

/-- Mathematical weighted sum of a histogram starting at bucket index i,
the quantity named sum(bucket[i] * midpoint(i)) by the spec, with
midpoint(i) = (1 <<< i) + (1 <<< i) / 2 taken without wraparound. -/
def histo_weight : Nat → List Nat → Nat
  | _, [] => 0
  | i, x :: xs => x * ((1 <<< i) + (1 <<< i) / 2) + histo_weight (i + 1) xs

/-- String constant VDEV_ALLOC_BIAS_LOG of sys/fs/zfs.h. -/
def VDEV_ALLOC_BIAS_LOG : String := "log"

/-- String constant VDEV_ALLOC_CLASS_LOGS of sys/fs/zfs.h. -/
def VDEV_ALLOC_CLASS_LOGS : String := "logs"

/-- String constant VDEV_ALLOC_BIAS_SPECIAL of sys/fs/zfs.h. -/
def VDEV_ALLOC_BIAS_SPECIAL : String := "special"

/-- String constant VDEV_ALLOC_BIAS_DEDUP of sys/fs/zfs.h. -/
def VDEV_ALLOC_BIAS_DEDUP : String := "dedup"

/-- String constant VDEV_TYPE_INDIRECT of sys/fs/zfs.h. -/
def VDEV_TYPE_INDIRECT : String := "indirect"

/-- Scalar configuration entries of one nvlist vdev node: its type string,
optional device path, positional id and guid, the is_log and is_hole
flags, the optional allocation-bias string and the optional statistics
snapshot (ZPOOL_CONFIG_VDEV_STATS). -/
structure VdevData where
  vtype : String
  path : Option String := none
  vid : Nat := 0
  guid : Nat := 0
  is_log : Bool := false
  is_hole : Bool := false
  alloc_bias : Option String := none
  stats : Option VdevStat := none
deriving DecidableEq

mutual

/-- Recursive vdev configuration tree: scalar data plus the
ZPOOL_CONFIG_CHILDREN, ZPOOL_CONFIG_SPARES and ZPOOL_CONFIG_L2CACHE child
arrays, in that order. -/
inductive Vdev where
  | mk : VdevData → VdevList → VdevList → VdevList → Vdev

/-- List of vdev nodes, as its own inductive so that all recursions stay
structural. -/
inductive VdevList where
  | nil : VdevList
  | cons : Vdev → VdevList → VdevList

end

/-- Scalar data of a vdev node. -/
def Vdev.data : Vdev → VdevData
  | .mk d _ _ _ => d

/-- Children array of a vdev node. -/
def Vdev.children : Vdev → VdevList
  | .mk _ c _ _ => c

/-- Spares array of a vdev node. -/
def Vdev.spares : Vdev → VdevList
  | .mk _ _ s _ => s

/-- L2cache array of a vdev node. -/
def Vdev.l2cache : Vdev → VdevList
  | .mk _ _ _ l => l

/-- Conversion of a VdevList to an ordinary list. -/
def VdevList.toList : VdevList → List Vdev
  | .nil => []
  | .cons v t => v :: t.toList

mutual

/-- Leaf vdevs beneath a node: the node itself when its children array is
empty, otherwise the concatenation of the leaves of its children. -/
def Vdev.leaves : Vdev → List Vdev
  | .mk d .nil s l => [Vdev.mk d .nil s l]
  | .mk _ (.cons c t) _ _ => VdevList.leavesList (.cons c t)

/-- Concatenated leaves of a list of vdevs. -/
def VdevList.leavesList : VdevList → List Vdev
  | .nil => []
  | .cons v t => v.leaves ++ VdevList.leavesList t

end

mutual

/-- The node itself followed by all of its descendants through the
children arrays, in depth-first order. -/
def Vdev.allNodes : Vdev → List Vdev
  | .mk d c s l => Vdev.mk d c s l :: VdevList.allNodesList c

/-- Concatenated allNodes of a list of vdevs. -/
def VdevList.allNodesList : VdevList → List Vdev
  | .nil => []
  | .cons v t => v.allNodes ++ VdevList.allNodesList t

end

/-- The vdev_health_check_cb callback of zpool_common.c lines 682-702,
applied to one vdev: result 1 (unhealthy) when the statistics lookup
fails, when any of the read, write or checksum error counters is non-zero,
when the state is not VDEV_STATE_HEALTHY, or when slow-IO display is
enabled and the slow_ios counter is non-zero; result 0 otherwise. -/
def vdev_health_check_cb (cb_print_slow_ios : Bool) (v : Vdev) : Nat :=
  match v.data.stats with
  | none => 1
  | some vs =>
    if vs.vs_checksum_errors ≠ 0 ∨ vs.vs_read_errors ≠ 0 ∨
        vs.vs_write_errors ≠ 0 ∨ vs.vs_state ≠ VDEV_STATE_HEALTHY then 1
    else if cb_print_slow_ios = true ∧ vs.vs_slow_ios ≠ 0 then 1
    else 0

/-- Modelled from the spec: the for_each_vdev_in_nvlist iterator called at
zpool_common.c line 966 lives in libzutil, which is not part of src/.
Section 4.2 of the spec describes the health-pruning walk as a bottom-up
check over every leaf beneath the node, and the callback in src documents
itself as called for each leaf vdev, so the walk is modelled as returning
0 exactly when the callback returns 0 on every leaf beneath the node. -/
def for_each_vdev_in_nvlist (cb : Vdev → Nat) (v : Vdev) : Nat :=
  if v.leaves.all (fun leaf => cb leaf == 0) then 0 else 1

/-- Health-pruning decision of print_status_config, zpool_common.c lines
961-968: with the only-unhealthy flag set and depth strictly positive, the
subtree is elided (the function returns before printing) exactly when the
health walk reports every leaf healthy. -/
def print_status_config_pruned (cb_print_unhealthy cb_print_slow_ios : Bool)
    (v : Vdev) (depth : Nat) : Bool :=
  cb_print_unhealthy && (depth != 0) &&
    (for_each_vdev_in_nvlist (vdev_health_check_cb cb_print_slow_ios) v == 0)

/-- Claimed elision predicate, written from the words of the claim: a
non-root subtree is elided exactly when every leaf beneath it reports
state Healthy and, when slow-IO display is enabled, zero slow I/Os. -/
def claim_elided (cb_print_slow_ios : Bool) (v : Vdev) (depth : Nat) : Bool :=
  (depth != 0) && v.leaves.all (fun leaf =>
    match leaf.data.stats with
    | none => false
    | some vs =>
      (vs.vs_state == VDEV_STATE_HEALTHY) &&
        (!cb_print_slow_ios || vs.vs_slow_ios == 0))

/-- Old/new child pairing of the per-child delta recursion in
print_vdev_stats, zpool_iostat.c lines 1071-1081: if the new nvlist has no
children array nothing is visited; with no old nvlist every new child is
paired with NULL; if the old nvlist has no children array nothing is
visited; otherwise the loop runs over MIN(oldchildren, children) indices
and pairs the old and new child at the same index. -/
def print_vdev_stats_child_pairs (oldnv : Option Vdev) (newnv : Vdev) :
    List (Option Vdev × Vdev) :=
  let newc := newnv.children.toList
  if newc.isEmpty then []
  else
    match oldnv with
    | none => newc.map (fun c => (none, c))
    | some o =>
      let oldc := o.children.toList
      if oldc.isEmpty then []
      else (oldc.zip newc).map (fun p => (some p.1, p.2))

/-- Child-selection predicate of print_class_vdevs, zpool_common.c lines
1367-1387: the bias of a child is the logs class when is_log is set,
otherwise its allocation-bias string; the child is printed under a class
section exactly when that bias equals the class name, except that a
non-log indirect vdev is skipped. -/
def print_class_vdevs_selects (cls : String) (v : Vdev) : Bool :=
  let d := v.data
  let bias : Option String :=
    if d.is_log then some VDEV_ALLOC_CLASS_LOGS else d.alloc_bias
  if bias ≠ some cls then false
  else if d.is_log = false ∧ d.vtype = VDEV_TYPE_INDIRECT then false
  else true

/-- Child-selection predicate of print_vdev_tree, zpool_common.c lines
238-256: holes are skipped; the class string starts empty, is set to
VDEV_ALLOC_BIAS_LOG when is_log is set, and is then overwritten by the
allocation-bias string when that entry is present; the child is printed
exactly when the class string equals the match argument. -/
def print_vdev_tree_selects (mtch : String) (v : Vdev) : Bool :=
  let d := v.data
  if d.is_hole then false
  else
    let cls := d.alloc_bias.getD (if d.is_log then VDEV_ALLOC_BIAS_LOG else "")
    mtch == cls

/-- Allocation class assigned to a top-level child by the claim: the
explicit alloc_bias string is preferred over the is_log flag, which on its
own encodes the logs class. -/
def claim_alloc_class (v : Vdev) : Option String :=
  match v.data.alloc_bias with
  | some b => some b
  | none => if v.data.is_log then some VDEV_ALLOC_CLASS_LOGS else none

/-- Naming flag set of the spec: UseGuid, FollowLinks, FullPath,
IncludeTypeId. -/
structure NameFlags where
  use_guid : Bool := false
  follow_links : Bool := false
  full_path : Bool := false
  type_id : Bool := false
deriving DecidableEq

/-- Character-list walk returning the suffix after the last slash. -/
def basename_go : List Char → List Char → List Char
  | [], cur => cur.reverse
  | c :: cs, cur =>
    if c = '/' then basename_go cs [] else basename_go cs (c :: cur)

/-- Final path component of a device path string. -/
def path_basename (p : String) : String := String.mk (basename_go p.data [])

/-- Modelled from the spec: zpool_vdev_name (libzfs) is not part of src/.
Section 4.1 of the spec: a leaf with a path renders as the raw path under
FullPath and as its basename otherwise, overridden by the guid under
UseGuid; a non-leaf renders as its type tag, suffixed with a positional id
when IncludeTypeId is set.  The id suffix is attached whenever the flag is
set, matching the concrete scenario of spec section 8.8 where the sole
mirror child is named mirror-0. -/
def compute_name (flags : NameFlags) (d : VdevData) : String :=
  if flags.use_guid then toString d.guid
  else
    match d.path with
    | some p => if flags.full_path then p else path_basename p
    | none => d.vtype ++ (if flags.type_id then "-" ++ toString d.vid else "")

mutual

/-- The max_width function of zpool_common.c lines 630-651: raise the
running maximum to the length of the display name of this node plus its
indentation depth, then recurse into the spares, l2cache and children
arrays at depth + 2. -/
def max_width (flags : NameFlags) : Vdev → Nat → Nat → Nat
  | .mk d cs ss ls, depth, mx =>
    let m1 := Nat.max ((compute_name flags d).length + depth) mx
    let m2 := max_width_list flags ss (depth + 2) m1
    let m3 := max_width_list flags ls (depth + 2) m2
    max_width_list flags cs (depth + 2) m3

/-- Fold of max_width over a child array, zpool_common.c lines 643-648. -/
def max_width_list (flags : NameFlags) : VdevList → Nat → Nat → Nat
  | .nil, _, mx => mx
  | .cons v t, depth, mx =>
    max_width_list flags t depth (Nat.max (max_width flags v depth mx) mx)

end

/-- The get_namewidth function of zpool_common.c lines 1436-1455, for a
pool whose configuration is available: the maximum of the pool-name length
and, in verbose mode, the max_width of the vdev tree seeded with the
minimum width; in non-verbose mode the minimum width itself. -/
def get_namewidth (poolname : String) (min_width : Nat) (flags : NameFlags)
    (verbose : Bool) (root : Vdev) : Nat :=
  if verbose then Nat.max poolname.length (max_width flags root 0 min_width)
  else Nat.max poolname.length min_width

/-- The two activities accepted by vdev_activity_remaining
(ZPOOL_WAIT_INITIALIZE and ZPOOL_WAIT_TRIM). -/
inductive WaitActivity where
  | init : WaitActivity
  | trim : WaitActivity
deriving DecidableEq

/-- Per-node contribution of vdev_activity_remaining, zpool_wait.c lines
110-119: the uint64 difference est - done of the matching operation when
its state is active, zero otherwise. -/
def vdev_activity_contrib (act : WaitActivity) (vs : VdevStat) : Nat :=
  match act with
  | .init =>
    if vs.vs_init_state = VDEV_INIT_ACTIVE then
      u64sub vs.vs_init_bytes_est vs.vs_init_bytes_done
    else 0
  | .trim =>
    if vs.vs_trim_state = VDEV_TRIM_ACTIVE then
      u64sub vs.vs_trim_bytes_est vs.vs_trim_bytes_done
    else 0

mutual

/-- The vdev_activity_remaining function of zpool_wait.c lines 96-129:
the contribution of this node plus the recursive totals of its children,
added in uint64 arithmetic.  The source verifies that the statistics
lookup succeeds and aborts otherwise; a missing statistics record is
modelled as the failure value none. -/
def vdev_activity_remaining (act : WaitActivity) : Vdev → Option Nat
  | .mk d cs _ _ =>
    match d.stats with
    | none => none
    | some vs => vdev_activity_remaining_list act cs (vdev_activity_contrib act vs)

/-- Accumulating loop over the children array of vdev_activity_remaining,
zpool_wait.c lines 125-126. -/
def vdev_activity_remaining_list (act : WaitActivity) :
    VdevList → Nat → Option Nat
  | .nil, acc => some acc
  | .cons v t, acc =>
    match vdev_activity_remaining act v with
    | none => none
    | some r => vdev_activity_remaining_list act t ((acc + r) % U64)

end

/-- Per-node contribution as worded by the claim: est_bytes minus
done_bytes (ordinary subtraction) when the matching operation is active,
zero otherwise. -/
def claim_activity_contrib (act : WaitActivity) (v : Vdev) : Nat :=
  match v.data.stats with
  | none => 0
  | some vs =>
    match act with
    | .init =>
      if vs.vs_init_state = VDEV_INIT_ACTIVE then
        vs.vs_init_bytes_est - vs.vs_init_bytes_done
      else 0
    | .trim =>
      if vs.vs_trim_state = VDEV_TRIM_ACTIVE then
        vs.vs_trim_bytes_est - vs.vs_trim_bytes_done
      else 0

/-- Outcome of one iteration of the wait_status_thread loop: the return
code of zpool_refresh_stats, the missing flag it reports, the return code
of zpool_props_refresh, and the return code of pthread_cond_timedwait
(0 when signalled by the main thread). -/
structure WaitIter where
  stats_rc : Int
  missing : Bool
  props_rc : Int
  wait_ret : Int
deriving DecidableEq

/-- The ETIMEDOUT errno value under Linux. -/
def ETIMEDOUT : Int := 110

/-- Loop body of wait_status_thread, zpool_wait.c lines 325-361: each
iteration first refreshes stats and properties, returning status 0 when
the pool is reported missing and 1 on any other refresh failure; it then
prints a row and waits, breaking with status 0 when signalled, continuing
on ETIMEDOUT, and returning 1 on any other wait error.  The result is
none when the supplied iteration outcomes are exhausted with the thread
still running. -/
def wait_status_loop : List WaitIter → Option Nat
  | [] => none
  | it :: rest =>
    if it.stats_rc ≠ 0 ∨ it.missing = true ∨ it.props_rc ≠ 0 then
      some (if it.missing then 0 else 1)
    else if it.wait_ret = 0 then some 0
    else if it.wait_ret = ETIMEDOUT then wait_status_loop rest
    else some 1

/-- The wait_status_thread function of zpool_wait.c lines 316-365: status
1 when opening the pool fails, otherwise the loop result. -/
def wait_status_thread (open_ok : Bool) (iters : List WaitIter) : Option Nat :=
  if open_ok then wait_status_loop iters else some 1

/-- An iteration on which the wait_status_thread loop keeps running: both
refreshes succeed, the pool is not missing, and the timed wait ends in
ETIMEDOUT. -/
def WaitIter.continues (it : WaitIter) : Prop :=
  it.stats_rc = 0 ∧ it.missing = false ∧ it.props_rc = 0 ∧
    it.wait_ret = ETIMEDOUT

/-- Scenario data of spec section 8.8: disk A with path /dev/sda and
guid 1. -/
def diskA : VdevData := { vtype := "disk", path := some "/dev/sda", guid := 1 }

/-- Scenario data of spec section 8.8: disk B with path /dev/sdb and
guid 2. -/
def diskB : VdevData := { vtype := "disk", path := some "/dev/sdb", guid := 2 }

/-- Scenario data of spec section 8.8: the mirror vdev with positional
id 0. -/
def mirror0 : VdevData := { vtype := "mirror", vid := 0 }

/-- Scenario tree of spec section 8.8: the mirror node over the two
disks. -/
def scenario_mirror : Vdev :=
  .mk mirror0
    (.cons (.mk diskA .nil .nil .nil) (.cons (.mk diskB .nil .nil .nil) .nil))
    .nil .nil

/-- Scenario tree of spec section 8.8: root over the mirror. -/
def scenario_root : Vdev :=
  .mk { vtype := "root" } (.cons scenario_mirror .nil) .nil .nil

/-- Leaf vdev used against the pruning claim: state Healthy, zero slow
I/Os, but one read error. -/
def c3_leaf : Vdev :=
  .mk { vtype := "disk", path := some "/dev/sda",
        stats := some { vs_state := VDEV_STATE_HEALTHY, vs_read_errors := 1 } }
    .nil .nil .nil

/-- Top-level vdev used against the classification claim: the legacy
is_log flag set together with an explicit special allocation bias. -/
def c7_child : Vdev :=
  .mk { vtype := "mirror", is_log := true,
        alloc_bias := some VDEV_ALLOC_BIAS_SPECIAL }
    .nil .nil .nil

/-! Helper lemmas about wrapping 64-bit arithmetic. -/

theorem u64sub_self (a : Nat) : u64sub a a = 0 := by
  unfold u64sub
  rw [Nat.add_sub_cancel_left, Nat.mod_self]

theorem u64sub_zero (a : Nat) (h : a < U64) : u64sub a 0 = a := by
  unfold u64sub
  rw [Nat.sub_zero, Nat.add_mod_right, Nat.mod_eq_of_lt h]

theorem u64sub_eq_sub (a b : Nat) (hb : b ≤ a) (ha : a < U64) :
    u64sub a b = a - b := by
  unfold u64sub
  have h1 : a + U64 - b = (a - b) + U64 := by omega
  rw [h1, Nat.add_mod_right, Nat.mod_eq_of_lt (by omega)]

theorem u64sub_lt (a b : Nat) : u64sub a b < U64 := by
  unfold u64sub
  exact Nat.mod_lt _ (by norm_num [U64])

/-- Claim C1, counterexample.  With no old snapshot (zero baseline) and no
histogram flags, the scaling factor on a new snapshot taken at timestamp
2 seconds is NANOSEC / timestamp = 1/2, not 1: the first sample is
extrapolated to a lifetime rate, contradicting the claim that the scale
factor is exactly 1 whenever the old snapshot is absent. -/
theorem first_sample_scale_not_one :
    iostat_scale (iostat_oldvs none) { vs_timestamp := 2000000000 } false
        = (1 : ℚ) / 2 ∧
      ((1 : ℚ) / 2) ≠ 1 := by
  constructor
  · show iostat_scale zerovs { vs_timestamp := 2000000000 } false = (1 : ℚ) / 2
    rw [iostat_scale]
    norm_num [zerovs, u64sub, U64, NANOSEC]
  · norm_num

/-- Claim C1, amended.  When no old snapshot is available the baseline is
the all-zero record, so every delta equals the new value (for both the
default counters and the extended stat arrays); the scale factor is 1
exactly when histogram output is requested or the new timestamp is zero,
and otherwise equals NANOSEC divided by the new timestamp, extrapolating
the lifetime totals to a rate. -/
theorem first_sample_delta_and_scale (newvs : VdevStat) (anyhisto : Bool)
    (hops : ∀ i, newvs.vs_ops i < U64) (hbytes : ∀ i, newvs.vs_bytes i < U64)
    (hts : newvs.vs_timestamp < U64) :
    (∀ i, (calc_default_iostats (iostat_oldvs none) newvs).vs_ops i
        = newvs.vs_ops i) ∧
    (∀ i, (calc_default_iostats (iostat_oldvs none) newvs).vs_bytes i
        = newvs.vs_bytes i) ∧
    (∀ arr : List Nat, calc_and_alloc_stats_ex none arr = arr) ∧
    (anyhisto = true →
      iostat_scale (iostat_oldvs none) newvs anyhisto = 1) ∧
    (newvs.vs_timestamp = 0 →
      iostat_scale (iostat_oldvs none) newvs anyhisto = 1) ∧
    (anyhisto = false → newvs.vs_timestamp ≠ 0 →
      iostat_scale (iostat_oldvs none) newvs anyhisto
        = (NANOSEC : ℚ) / (newvs.vs_timestamp : ℚ)) := by
  have hold : iostat_oldvs none = zerovs := rfl
  have hzts : zerovs.vs_timestamp = 0 := rfl
  refine ⟨?_, ?_, ?_, ?_, ?_, ?_⟩
  · intro i
    simp only [hold, calc_default_iostats]
    exact u64sub_zero _ (hops i)
  · intro i
    simp only [hold, calc_default_iostats]
    exact u64sub_zero _ (hbytes i)
  · intro arr
    rfl
  · intro h
    simp [hold, iostat_scale, hzts, h]
  · intro h
    simp [hold, iostat_scale, hzts, h, u64sub_self]
  · intro h1 h2
    rw [iostat_scale]
    simp only [hold, hzts]
    rw [if_neg (by simp [h1]), u64sub_zero _ hts, if_neg h2]

/-- Claim C1, witness for the amended theorem at a concrete input. -/
theorem first_sample_delta_and_scale_witness :
    (calc_default_iostats (iostat_oldvs none)
        { vs_timestamp := 2000000000, vs_ops := fun _ => 150 }).vs_ops 1 = 150 ∧
    iostat_scale (iostat_oldvs none)
        { vs_timestamp := 2000000000, vs_ops := fun _ => 150 } false
      = (NANOSEC : ℚ) / (2000000000 : ℚ) := by
  have h := first_sample_delta_and_scale
    { vs_timestamp := 2000000000, vs_ops := fun _ => 150 } false
    (fun _ => by norm_num [U64]) (fun _ => by norm_num [U64])
    (by norm_num [U64])
  exact ⟨h.1 1, h.2.2.2.2.2 rfl (by norm_num)⟩

/-- Claim C4, counterexample.  With histogram output enabled and an old
snapshot whose timestamp is zero, the time delta is non-zero (5) yet the
scale factor is 1 rather than NANOSEC / 5: the clause of the claim that a
non-zero time delta always yields scale = NANOSEC / delta fails on the
histogram special case of zpool_iostat.c lines 1023-1029. -/
theorem scale_histo_lifetime_counterexample :
    iostat_scale { vs_timestamp := 0 } { vs_timestamp := 5 } true = 1 ∧
    iostat_tdelta { vs_timestamp := 0 } { vs_timestamp := 5 } = 5 ∧
    (1 : ℚ) ≠ (NANOSEC : ℚ) / (5 : ℚ) := by
  refine ⟨?_, ?_, ?_⟩
  · rw [iostat_scale]
    norm_num
  · rw [iostat_tdelta]
    norm_num [u64sub, U64]
  · norm_num [NANOSEC]

/-- Claim C4, amended.  Equal timestamps always give scale exactly 1 (the
division is guarded and never runs with a zero divisor), and a non-zero
time delta gives scale = NANOSEC / delta except in the histogram special
case, when the old timestamp is zero and any histogram output is
requested, where the scale is 1. -/
theorem scale_time_delta_spec (oldvs newvs : VdevStat) (anyhisto : Bool) :
    (oldvs.vs_timestamp = newvs.vs_timestamp →
      iostat_scale oldvs newvs anyhisto = 1) ∧
    (iostat_tdelta oldvs newvs ≠ 0 →
      ¬(oldvs.vs_timestamp = 0 ∧ anyhisto = true) →
      iostat_scale oldvs newvs anyhisto
        = (NANOSEC : ℚ) / (iostat_tdelta oldvs newvs : ℚ)) := by
  constructor
  · intro h
    rw [iostat_scale]
    by_cases hh : oldvs.vs_timestamp = 0 ∧ anyhisto = true
    · rw [if_pos hh]
    · rw [if_neg hh, if_pos]
      show u64sub newvs.vs_timestamp oldvs.vs_timestamp = 0
      rw [h, u64sub_self]
  · intro h1 h2
    rw [iostat_tdelta] at h1
    rw [iostat_scale, if_neg h2, if_neg h1]
    rfl

/-- Claim C4, witness for the amended theorem at concrete inputs: equal
timestamps of 5 give scale 1, and timestamps 5 and 7 give a delta of 2
and scale NANOSEC / 2. -/
theorem scale_time_delta_spec_witness :
    iostat_scale { vs_timestamp := 5 } { vs_timestamp := 5 } false = 1 ∧
    iostat_scale { vs_timestamp := 5 } { vs_timestamp := 7 } false
      = (NANOSEC : ℚ) / (2 : ℚ) := by
  constructor
  · exact (scale_time_delta_spec { vs_timestamp := 5 } { vs_timestamp := 5 }
      false).1 rfl
  · have h := (scale_time_delta_spec { vs_timestamp := 5 } { vs_timestamp := 7 }
      false).2
    have ht : iostat_tdelta ({ vs_timestamp := 5 } : VdevStat)
        { vs_timestamp := 7 } = 2 := by
      rw [iostat_tdelta]
      norm_num [u64sub, U64]
    rw [h (by rw [ht]; norm_num) (by simp), ht]
    norm_num

/-! Helper lemmas for the histogram average. -/

theorem U64_eq_pow : U64 = 2 ^ 64 := by norm_num [U64]

theorem histo_midpoint_eq (i : Nat) (h : i < 64) :
    histo_midpoint i = (1 <<< i) + (1 <<< i) / 2 := by
  have hs : (1 : Nat) <<< i = 2 ^ i := by
    rw [Nat.shiftLeft_eq, one_mul]
  have hlt : 2 ^ i < U64 := by
    rw [U64_eq_pow]
    exact Nat.pow_lt_pow_right (by norm_num) h
  have hhalf : 2 ^ i / 2 < 2 ^ i := Nat.div_lt_self (Nat.pos_of_ne_zero (by positivity)) (by norm_num)
  have hsum : 2 ^ i + 2 ^ i / 2 < U64 := by
    rw [U64_eq_pow]
    have h1 : 2 ^ i + 2 ^ i ≤ 2 ^ 64 := by
      have : 2 ^ i + 2 ^ i = 2 ^ (i + 1) := by ring
      rw [this]
      exact Nat.pow_le_pow_right (by norm_num) h
    omega
  rw [histo_midpoint, hs, Nat.mod_eq_of_lt hlt, Nat.mod_eq_of_lt hsum]

theorem histo_sum_le_weight (l : List Nat) :
    ∀ i, l.sum ≤ histo_weight i l := by
  induction l with
  | nil => intro i; simp [histo_weight]
  | cons x xs ih =>
    intro i
    have hx : x ≤ x * ((1 <<< i) + (1 <<< i) / 2) := by
      have h1 : (1 : Nat) ≤ (1 <<< i) + (1 <<< i) / 2 := by
        have : (1 : Nat) ≤ 1 <<< i := by
          rw [Nat.shiftLeft_eq, one_mul]
          exact Nat.one_le_two_pow
        omega
      calc x = x * 1 := (Nat.mul_one x).symm
        _ ≤ x * ((1 <<< i) + (1 <<< i) / 2) := Nat.mul_le_mul_left x h1
    calc (x :: xs).sum = x + xs.sum := by simp
      _ ≤ x * ((1 <<< i) + (1 <<< i) / 2) + histo_weight (i + 1) xs :=
        Nat.add_le_add hx (ih (i + 1))
      _ = histo_weight i (x :: xs) := rfl

theorem histo_accum_eq (l : List Nat) :
    ∀ i total count, i + l.length ≤ 64 →
      total + histo_weight i l < U64 →
      count + l.sum < U64 →
      histo_accum i l total count = (total + histo_weight i l, count + l.sum) := by
  induction l with
  | nil =>
    intro i total count _ _ _
    simp [histo_accum, histo_weight]
  | cons x xs ih =>
    intro i total count hlen hw hc
    have hi : i < 64 := by
      simp only [List.length_cons] at hlen
      omega
    have hmid := histo_midpoint_eq i hi
    have hwx : histo_weight i (x :: xs)
        = x * ((1 <<< i) + (1 <<< i) / 2) + histo_weight (i + 1) xs := rfl
    have hsx : (x :: xs).sum = x + xs.sum := by simp
    rw [hwx] at hw
    rw [hsx] at hc
    by_cases hx : x = 0
    · subst hx
      rw [histo_accum, if_neg (by simp)]
      rw [ih (i + 1) total count
        (by simp only [List.length_cons] at hlen; omega)
        (by simpa using hw) (by omega)]
      rw [hwx, hsx]
      simp
    · rw [histo_accum, if_pos hx]
      have hprod : x * histo_midpoint i < U64 := by
        rw [hmid]; omega
      have hm1 : x * histo_midpoint i % U64 = x * histo_midpoint i :=
        Nat.mod_eq_of_lt hprod
      have hm2 : (total + x * histo_midpoint i) % U64
          = total + x * histo_midpoint i := by
        apply Nat.mod_eq_of_lt
        rw [hmid]; omega
      have hm3 : (count + x) % U64 = count + x := by
        apply Nat.mod_eq_of_lt; omega
      rw [hm1, hm2, hm3]
      rw [ih (i + 1) (total + x * histo_midpoint i) (count + x)
        (by simp only [List.length_cons] at hlen; omega)
        (by rw [hmid]; omega) (by omega)]
      rw [hwx, hsx, hmid]
      rw [Prod.mk.injEq]
      constructor <;> omega

/-- Claim C2.  For a power-of-two latency histogram whose mathematical
weighted total fits in 64 bits (at most 64 buckets, as in the source where
histograms have 37), single_histo_average returns the integer quotient of
sum(bucket[i] * midpoint(i)) by sum(bucket[i]) with
midpoint(i) = (1 <<< i) + (1 <<< i) / 2, and returns 0 when every bucket
is zero. -/
theorem single_histo_average_spec (histo : List Nat)
    (hlen : histo.length ≤ 64) (hw : histo_weight 0 histo < U64) :
    single_histo_average histo = histo_weight 0 histo / histo.sum ∧
      (histo.sum = 0 → single_histo_average histo = 0) := by
  have hc : histo.sum < U64 :=
    Nat.lt_of_le_of_lt (histo_sum_le_weight histo 0) hw
  have hacc := histo_accum_eq histo 0 0 0 (by omega) (by omega) (by omega)
  simp only [Nat.zero_add] at hacc
  constructor
  · rw [single_histo_average, hacc]
    by_cases hz : histo.sum = 0
    · simp [hz]
    · simp [hz]
  · intro hz
    rw [single_histo_average, hacc]
    simp [hz]

/-- Claim C2, witness: the concrete histogram of the spec scenario, whose
only non-zero bucket is bucket 1 with count 4 (midpoint 3), averages to
(4 * 3) / 4 = 3. -/
theorem single_histo_average_spec_witness :
    single_histo_average [0, 4] = 3 ∧ histo_weight 0 [0, 4] = 12 ∧
      ([0, 4] : List Nat).sum = 4 := by
  have h := (single_histo_average_spec [0, 4] (by decide) (by decide)).1
  refine ⟨?_, by decide, by decide⟩
  rw [h]
  decide

/-! Helper lemmas about the extended stat-array subtraction. -/

theorem sub_stat_array_getD : ∀ (old new : List Nat) (i : Nat),
    i < new.length →
    (sub_stat_array old new).getD i 0 =
      if i < old.length then u64sub (new.getD i 0) (old.getD i 0)
      else new.getD i 0
  | [], ns, i, _ => by simp [sub_stat_array]
  | _ :: _, [], i, h => by simp at h
  | o :: os, n :: ns, 0, _ => by simp [sub_stat_array]
  | o :: os, n :: ns, (i + 1), h => by
    have ih := sub_stat_array_getD os ns i (by simpa using h)
    simpa [sub_stat_array] using ih

/-- Claim C6.  When every counter of the new snapshot is pointwise at
least the corresponding counter of the old snapshot (and the counters are
genuine 64-bit values), every ops and bytes entry of calc_default_iostats
and every histogram bucket of calc_and_alloc_stats_ex equals the exact
difference new - old, and in particular is non-negative. -/
theorem delta_nonneg_monotone (oldvs newvs : VdevStat) (oldh newh : List Nat)
    (hops : ∀ i, oldvs.vs_ops i ≤ newvs.vs_ops i)
    (hops2 : ∀ i, newvs.vs_ops i < U64)
    (hbytes : ∀ i, oldvs.vs_bytes i ≤ newvs.vs_bytes i)
    (hbytes2 : ∀ i, newvs.vs_bytes i < U64)
    (hh : ∀ i, i < newh.length → oldh.getD i 0 ≤ newh.getD i 0)
    (hh2 : ∀ i, i < newh.length → newh.getD i 0 < U64) :
    (∀ i, ((calc_default_iostats oldvs newvs).vs_ops i : ℤ)
        = (newvs.vs_ops i : ℤ) - (oldvs.vs_ops i : ℤ) ∧
      0 ≤ ((calc_default_iostats oldvs newvs).vs_ops i : ℤ)) ∧
    (∀ i, ((calc_default_iostats oldvs newvs).vs_bytes i : ℤ)
        = (newvs.vs_bytes i : ℤ) - (oldvs.vs_bytes i : ℤ) ∧
      0 ≤ ((calc_default_iostats oldvs newvs).vs_bytes i : ℤ)) ∧
    (∀ i, i < newh.length →
      ((calc_and_alloc_stats_ex (some oldh) newh).getD i 0 : ℤ)
        = (newh.getD i 0 : ℤ) - (oldh.getD i 0 : ℤ) ∧
      0 ≤ ((calc_and_alloc_stats_ex (some oldh) newh).getD i 0 : ℤ)) := by
  refine ⟨?_, ?_, ?_⟩
  · intro i
    have he : (calc_default_iostats oldvs newvs).vs_ops i
        = newvs.vs_ops i - oldvs.vs_ops i := by
      show u64sub (newvs.vs_ops i) (oldvs.vs_ops i) = _
      exact u64sub_eq_sub _ _ (hops i) (hops2 i)
    rw [he]
    constructor
    · exact_mod_cast Int.ofNat_sub (hops i)
    · exact Int.ofNat_nonneg _
  · intro i
    have he : (calc_default_iostats oldvs newvs).vs_bytes i
        = newvs.vs_bytes i - oldvs.vs_bytes i := by
      show u64sub (newvs.vs_bytes i) (oldvs.vs_bytes i) = _
      exact u64sub_eq_sub _ _ (hbytes i) (hbytes2 i)
    rw [he]
    constructor
    · exact_mod_cast Int.ofNat_sub (hbytes i)
    · exact Int.ofNat_nonneg _
  · intro i hi
    have he : (calc_and_alloc_stats_ex (some oldh) newh).getD i 0
        = newh.getD i 0 - oldh.getD i 0 := by
      show (sub_stat_array oldh newh).getD i 0 = _
      rw [sub_stat_array_getD oldh newh i hi]
      by_cases hlt : i < oldh.length
      · rw [if_pos hlt]
        exact u64sub_eq_sub _ _ (hh i hi) (hh2 i hi)
      · rw [if_neg hlt]
        have hd : oldh.getD i 0 = 0 :=
          List.getD_eq_default _ _ (by omega)
        omega
    rw [he]
    constructor
    · exact_mod_cast Int.ofNat_sub (hh i hi)
    · exact Int.ofNat_nonneg _

/-- Claim C6, witness at concrete monotone snapshots: ops 100 to 150
gives delta 50, and histogram buckets [1, 2] to [5, 7, 9] give deltas
[4, 5, 9], all non-negative. -/
theorem delta_nonneg_monotone_witness :
    ((calc_default_iostats { vs_ops := fun _ => 100 }
        { vs_ops := fun _ => 150 }).vs_ops 0 : ℤ) = 50 ∧
    ((calc_and_alloc_stats_ex (some [1, 2]) [5, 7, 9]).getD 2 0 : ℤ) = 9 ∧
    0 ≤ ((calc_and_alloc_stats_ex (some [1, 2]) [5, 7, 9]).getD 0 0 : ℤ) := by
  have h := delta_nonneg_monotone { vs_ops := fun _ => 100 }
    { vs_ops := fun _ => 150 } [1, 2] [5, 7, 9]
    (by decide) (by decide) (by decide) (by decide) (by decide) (by decide)
  refine ⟨?_, ?_, (h.2.2 0 (by norm_num)).2⟩
  · rw [(h.1 0).1]
    norm_num
  · rw [(h.2.2 2 (by norm_num)).1]
    norm_num

/-- Health-callback characterisation: result 0 exactly when statistics
are present with zero read, write and checksum errors, healthy state, and
slow I/Os zero whenever slow-IO display is enabled. -/
theorem health_check_eq_zero_iff (slow : Bool) (leaf : Vdev) :
    vdev_health_check_cb slow leaf = 0 ↔
      ∃ vs, leaf.data.stats = some vs ∧
        vs.vs_read_errors = 0 ∧ vs.vs_write_errors = 0 ∧
        vs.vs_checksum_errors = 0 ∧ vs.vs_state = VDEV_STATE_HEALTHY ∧
        (slow = true → vs.vs_slow_ios = 0) := by
  cases hs : leaf.data.stats with
  | none => simp [vdev_health_check_cb, hs]
  | some vs =>
    simp only [vdev_health_check_cb, hs, Option.some.injEq]
    split_ifs with h1 h2
    · exact iff_of_false (by norm_num) (by rintro ⟨vs1, rfl, h⟩; tauto)
    · exact iff_of_false (by norm_num) (by rintro ⟨vs1, rfl, h⟩; tauto)
    · refine iff_of_true rfl ⟨vs, rfl, ?_⟩
      push_neg at h1 h2
      refine ⟨h1.2.1, h1.2.2.1, h1.1, h1.2.2.2, ?_⟩
      intro hsl
      by_cases hz : vs.vs_slow_ios = 0
      · exact hz
      · exact absurd hsl (by simpa [hz] using h2)

/-- Claim C3, counterexample.  A leaf whose state is Healthy with zero
slow I/Os but one read error satisfies the claimed elision condition
(every leaf Healthy with zero slow I/Os), yet the code keeps it: the
health callback of zpool_common.c lines 694-696 also demands zero read,
write and checksum error counters, which the claim omits. -/
theorem prune_errors_counterexample :
    claim_elided false c3_leaf 1 = true ∧
      print_status_config_pruned true false c3_leaf 1 = false := by
  decide

/-- Claim C3, amended.  In the only-unhealthy status mode a non-root
subtree is elided exactly when every leaf beneath it has statistics with
zero read, write and checksum error counters, state Healthy and, when
slow-IO display is enabled, zero slow I/Os; the predicate looks only at
leaves, a subtree is kept whenever any descendant leaf fails the check,
and the root (depth 0) is always shown. -/
theorem prune_iff_all_leaves_clean (slow : Bool) (v : Vdev) (depth : Nat) :
    (print_status_config_pruned true slow v depth = true ↔
      depth ≠ 0 ∧ ∀ leaf ∈ v.leaves, ∃ vs, leaf.data.stats = some vs ∧
        vs.vs_read_errors = 0 ∧ vs.vs_write_errors = 0 ∧
        vs.vs_checksum_errors = 0 ∧ vs.vs_state = VDEV_STATE_HEALTHY ∧
        (slow = true → vs.vs_slow_ios = 0)) ∧
    print_status_config_pruned true slow v 0 = false := by
  constructor
  · rw [print_status_config_pruned, for_each_vdev_in_nvlist]
    constructor
    · intro h
      have h1 : (depth != 0) = true ∧
          ((if v.leaves.all fun leaf =>
              vdev_health_check_cb slow leaf == 0 then 0 else 1) == 0)
            = true := by
        constructor <;> [skip; skip] <;>
          simp only [Bool.and_eq_true, Bool.true_and] at h <;> tauto
      refine ⟨by simpa using h1.1, ?_⟩
      intro leaf hleaf
      rw [← health_check_eq_zero_iff]
      have h2 := h1.2
      by_cases hall : v.leaves.all (fun leaf => vdev_health_check_cb slow leaf == 0) = true
      · have := List.all_eq_true.mp hall leaf hleaf
        simpa using this
      · rw [if_neg (by simpa using hall)] at h2
        simp at h2
    · rintro ⟨hd, hleaves⟩
      have hall : v.leaves.all (fun leaf => vdev_health_check_cb slow leaf == 0)
          = true := by
        rw [List.all_eq_true]
        intro leaf hleaf
        have := (health_check_eq_zero_iff slow leaf).mpr (hleaves leaf hleaf)
        simpa using this
      simp [hall, hd]
  · simp [print_status_config_pruned]

/-- Claim C5.  With an old snapshot present, the per-child delta
recursion of print_vdev_stats visits exactly min(old_children,
new_children) index positions, pairing the old and new child found at the
same index; children of the longer list beyond that bound are dropped
silently (they appear in no pair). -/
theorem child_pairs_truncate_min (o newnv : Vdev) :
    (print_vdev_stats_child_pairs (some o) newnv).length
      = min o.children.toList.length newnv.children.toList.length ∧
    ∀ k, k < min o.children.toList.length newnv.children.toList.length →
      ∃ oc nc, o.children.toList.get? k = some oc ∧
        newnv.children.toList.get? k = some nc ∧
        (print_vdev_stats_child_pairs (some o) newnv).get? k
          = some (some oc, nc) := by
  rw [print_vdev_stats_child_pairs]
  by_cases h1 : newnv.children.toList.isEmpty
  · rw [if_pos h1]
    rw [List.isEmpty_iff] at h1
    rw [h1]
    simp
  · rw [if_neg h1]
    by_cases h2 : o.children.toList.isEmpty
    · simp only [h2, if_pos]
      rw [List.isEmpty_iff] at h2
      rw [h2]
      simp
    · rw [if_neg h2]
      constructor
      · rw [List.length_map, List.length_zip]
      · intro k hk
        have hko : k < o.children.toList.length := lt_of_lt_of_le hk (Nat.min_le_left _ _)
        have hkn : k < newnv.children.toList.length := lt_of_lt_of_le hk (Nat.min_le_right _ _)
        refine ⟨o.children.toList.get ⟨k, hko⟩, newnv.children.toList.get ⟨k, hkn⟩,
          List.get?_eq_get hko, List.get?_eq_get hkn, ?_⟩
        rw [List.get?_map]
        rw [(List.get?_zip_eq_some o.children.toList newnv.children.toList
          (o.children.toList.get ⟨k, hko⟩, newnv.children.toList.get ⟨k, hkn⟩)
          k).mpr ⟨List.get?_eq_get hko, List.get?_eq_get hkn⟩]
        rfl

/-- Claim C5, witness: the old tree has one child and the new tree two,
so exactly min(1, 2) = 1 pair is produced, joining the children at
index 0; the extra new child yields no pair. -/
theorem child_pairs_truncate_min_witness :
    (print_vdev_stats_child_pairs (some scenario_root) scenario_mirror).length
        = 1 ∧
      (print_vdev_stats_child_pairs (some scenario_root)
          scenario_mirror).get? 0
        = some (some scenario_mirror, Vdev.mk diskA .nil .nil .nil) := by
  have h := child_pairs_truncate_min scenario_root scenario_mirror
  constructor
  · rw [h.1]
    decide
  · obtain ⟨oc, nc, hoc, hnc, hp⟩ := h.2 0 (by decide)
    have e1 : scenario_root.children.toList.get? 0 = some scenario_mirror := rfl
    have e2 : scenario_mirror.children.toList.get? 0
        = some (Vdev.mk diskA .nil .nil .nil) := rfl
    rw [e1] at hoc
    rw [e2] at hnc
    rw [hp, ← Option.some_inj.mp hoc, ← Option.some_inj.mp hnc]

/-- Claim C7, counterexample.  For a top-level vdev carrying both
is_log = true and alloc_bias = special, the claim routes it to the
special section (alloc_bias preferred), but the section-routing reader
print_class_vdevs routes it to the logs section: zpool_common.c lines
1375-1382 consult the allocation bias only when is_log is clear. -/
theorem class_routing_islog_counterexample :
    claim_alloc_class c7_child = some VDEV_ALLOC_BIAS_SPECIAL ∧
      print_class_vdevs_selects VDEV_ALLOC_BIAS_SPECIAL c7_child = false ∧
      print_class_vdevs_selects VDEV_ALLOC_CLASS_LOGS c7_child = true := by
  refine ⟨rfl, ?_, ?_⟩ <;> decide

/-- Claim C7, amended.  The section-routing reader print_class_vdevs
prefers the legacy is_log flag: a vdev with is_log set is selected
exactly for the logs section, whatever its alloc_bias says; only when
is_log is clear is the explicit alloc_bias consulted (with non-log
indirect vdevs skipped).  The dry-run tree printer print_vdev_tree makes
the opposite choice and prefers the explicit alloc_bias over is_log. -/
theorem class_routing_spec (v : Vdev) (cls : String) :
    (v.data.is_log = true →
      (print_class_vdevs_selects cls v = true ↔ cls = VDEV_ALLOC_CLASS_LOGS)) ∧
    (v.data.is_log = false →
      (print_class_vdevs_selects cls v = true ↔
        v.data.alloc_bias = some cls ∧ v.data.vtype ≠ VDEV_TYPE_INDIRECT)) ∧
    (v.data.is_hole = false →
      (print_vdev_tree_selects cls v = true ↔
        cls = v.data.alloc_bias.getD
          (if v.data.is_log then VDEV_ALLOC_BIAS_LOG else ""))) := by
  refine ⟨?_, ?_, ?_⟩
  · intro hl
    rw [print_class_vdevs_selects]
    simp only [hl]
    by_cases hc : cls = VDEV_ALLOC_CLASS_LOGS
    · subst hc
      simp
    · rw [if_pos (by simp; exact fun h => hc h.symm)]
      simp [hc]
  · intro hl
    rw [print_class_vdevs_selects]
    simp only [hl]
    by_cases hb : v.data.alloc_bias = some cls
    · rw [if_neg (by simp [hb])]
      by_cases hi : v.data.vtype = VDEV_TYPE_INDIRECT
      · rw [if_pos (by simp [hi])]
        simp [hb, hi]
      · rw [if_neg (by simp [hi])]
        simp [hb, hi]
    · rw [if_pos (by simp [hb])]
      simp [hb]
  · intro hh
    rw [print_vdev_tree_selects]
    simp [hh]

/-- Claim C7, witness for the amended theorem: the dual-encoded vdev is
selected for the logs section and not the special section, while the
dry-run tree printer selects it for the special class. -/
theorem class_routing_spec_witness :
    print_class_vdevs_selects VDEV_ALLOC_CLASS_LOGS c7_child = true ∧
      print_class_vdevs_selects VDEV_ALLOC_BIAS_SPECIAL c7_child = false ∧
      print_vdev_tree_selects VDEV_ALLOC_BIAS_SPECIAL c7_child = true := by
  refine ⟨?_, ?_, ?_⟩
  · exact (class_routing_spec c7_child VDEV_ALLOC_CLASS_LOGS).1 rfl |>.mpr rfl
  · have h := (class_routing_spec c7_child VDEV_ALLOC_BIAS_SPECIAL).1 rfl
    by_cases hc : print_class_vdevs_selects VDEV_ALLOC_BIAS_SPECIAL c7_child = true
    · exact absurd (h.mp hc) (by decide)
    · simpa using hc
  · exact ((class_routing_spec c7_child VDEV_ALLOC_BIAS_SPECIAL).2.2 rfl).mpr rfl

/-- Claim C8, counterexample.  Using the type-id naming the claim itself
relies on (the mirror renders as mirror-0), the width computation over
the scenario tree with minimum width 9 returns 10, not 9: the claimed
formula max(len(mirror-0) + 2, len(sda) + 4, len(sdb) + 4, 9) actually
evaluates to 10, because len(mirror-0) + 2 = 10 exceeds the minimum. -/
theorem namewidth_typeid_counterexample :
    compute_name { type_id := true } mirror0 = "mirror-0" ∧
      max_width { type_id := true } scenario_root 0 9 = 10 := by
  constructor <;> decide

/-- Claim C8, amended.  The max_width walk passes its name flags through
unchanged, so with the default flag set (no type-id suffix) the scenario
names are root, mirror, sda and sdb; the depth-adjusted lengths are
4 + 0, 6 + 2, 3 + 4 and 3 + 4, all at most the minimum width 9, and
max_width (and get_namewidth in verbose mode, for a pool name no longer
than 9) returns exactly 9.  With type-id naming the result would be 10,
as the counterexample shows. -/
theorem namewidth_scenario_default :
    compute_name {} mirror0 = "mirror" ∧
      compute_name {} diskA = "sda" ∧
      compute_name {} diskB = "sdb" ∧
      max_width {} scenario_root 0 9 = 9 ∧
      get_namewidth "tank" 9 {} true scenario_root = 9 := by
  refine ⟨?_, ?_, ?_, ?_, ?_⟩ <;> decide

/-- Bound on the per-node contribution of vdev_activity_remaining. -/
theorem vdev_activity_contrib_lt (act : WaitActivity) (vs : VdevStat) :
    vdev_activity_contrib act vs < U64 := by
  cases act <;> rw [vdev_activity_contrib] <;> split <;>
    first
      | exact u64sub_lt _ _
      | norm_num [U64]

mutual

/-- Unconditional characterisation of vdev_activity_remaining: when every
node of the subtree has statistics, the result is the sum of the per-node
contributions over the node and its descendants, reduced modulo 2^64. -/
theorem vdev_activity_remaining_all (act : WaitActivity) (v : Vdev)
    (h : ∀ n ∈ v.allNodes, n.data.stats.isSome = true) :
    vdev_activity_remaining act v
      = some ((v.allNodes.map
          (fun n => vdev_activity_contrib act (n.data.stats.getD zerovs))).sum
        % U64) := by
  obtain ⟨d, cs, s, l⟩ := v
  have hnodes : (Vdev.mk d cs s l).allNodes
      = Vdev.mk d cs s l :: cs.allNodesList := rfl
  have hself : (Vdev.mk d cs s l).data.stats.isSome = true := by
    apply h
    rw [hnodes]
    exact List.mem_cons_self _ _
  cases hs : d.stats with
  | none => simp [Vdev.data, hs] at hself
  | some vs =>
    have hrec := vdev_activity_remaining_list_all act cs
      (vdev_activity_contrib act vs)
      (vdev_activity_contrib_lt act vs)
      (by
        intro n hn
        apply h
        rw [hnodes]
        exact List.mem_cons_of_mem _ hn)
    simp only [vdev_activity_remaining, hs, hrec, hnodes]
    simp [Vdev.data, hs]

/-- List counterpart of vdev_activity_remaining_all, tracking the running
accumulator of the loop over a children array. -/
theorem vdev_activity_remaining_list_all (act : WaitActivity) (cs : VdevList)
    (acc : Nat) (hacc : acc < U64)
    (h : ∀ n ∈ cs.allNodesList, n.data.stats.isSome = true) :
    vdev_activity_remaining_list act cs acc
      = some ((acc + (cs.allNodesList.map
          (fun n => vdev_activity_contrib act (n.data.stats.getD zerovs))).sum)
        % U64) := by
  cases cs with
  | nil =>
    rw [vdev_activity_remaining_list]
    simp [VdevList.allNodesList, Nat.mod_eq_of_lt hacc]
  | cons v t =>
    have hv := vdev_activity_remaining_all act v
      (fun n hn => h n (by
        show n ∈ v.allNodes ++ t.allNodesList
        exact List.mem_append_left _ hn))
    have ht := vdev_activity_remaining_list_all act t
      ((acc + (v.allNodes.map
        (fun n => vdev_activity_contrib act (n.data.stats.getD zerovs))).sum
          % U64) % U64)
      (Nat.mod_lt _ (by norm_num [U64]))
      (fun n hn => h n (by
        show n ∈ v.allNodes ++ t.allNodesList
        exact List.mem_append_right _ hn))
    rw [vdev_activity_remaining_list]
    simp only [hv]
    rw [ht]
    have hcat : (VdevList.cons v t).allNodesList
        = v.allNodes ++ t.allNodesList := rfl
    rw [hcat, List.map_append, List.sum_append]
    congr 1
    rw [Nat.mod_add_mod, ← Nat.add_assoc]
    exact ((Nat.mod_modEq _ U64).add_left acc).add_right _

end

/-- Claim C9.  With statistics present on every node, byte counters that
are genuine 64-bit values with done at most est, and a total that fits in
64 bits, the zpool wait remaining-bytes computation returns exactly the
sum, over the vdev and all of its descendants, of est - done for nodes
whose matching operation is Active; a node whose operation is in any
other state (suspended, complete, cancelled or never started) contributes
exactly 0. -/
theorem activity_remaining_sum (act : WaitActivity) (v : Vdev)
    (hstats : ∀ n ∈ v.allNodes, n.data.stats.isSome = true)
    (hbnd : ∀ n ∈ v.allNodes,
      (n.data.stats.getD zerovs).vs_init_bytes_done
          ≤ (n.data.stats.getD zerovs).vs_init_bytes_est ∧
        (n.data.stats.getD zerovs).vs_init_bytes_est < U64 ∧
        (n.data.stats.getD zerovs).vs_trim_bytes_done
          ≤ (n.data.stats.getD zerovs).vs_trim_bytes_est ∧
        (n.data.stats.getD zerovs).vs_trim_bytes_est < U64)
    (hsum : (v.allNodes.map (claim_activity_contrib act)).sum < U64) :
    vdev_activity_remaining act v
        = some ((v.allNodes.map (claim_activity_contrib act)).sum) ∧
      (∀ vs : VdevStat, vs.vs_init_state ≠ VDEV_INIT_ACTIVE →
        vdev_activity_contrib WaitActivity.init vs = 0) ∧
      (∀ vs : VdevStat, vs.vs_trim_state ≠ VDEV_TRIM_ACTIVE →
        vdev_activity_contrib WaitActivity.trim vs = 0) := by
  refine ⟨?_, ?_, ?_⟩
  · have hmap : v.allNodes.map
        (fun n => vdev_activity_contrib act (n.data.stats.getD zerovs))
          = v.allNodes.map (claim_activity_contrib act) := by
      apply List.map_congr_left
      intro n hn
      obtain ⟨h1, h2, h3, h4⟩ := hbnd n hn
      have hsome := hstats n hn
      cases hs : n.data.stats with
      | none => simp [hs] at hsome
      | some vs =>
        rw [hs] at h1 h2 h3 h4
        simp only [Option.getD_some] at h1 h2 h3 h4
        rw [claim_activity_contrib, hs]
        cases act <;> rw [vdev_activity_contrib] <;>
          simp only [Option.getD_some] <;> split <;>
          first
            | exact u64sub_eq_sub _ _ (by assumption) (by assumption)
            | rfl
    rw [vdev_activity_remaining_all act v hstats, hmap,
      Nat.mod_eq_of_lt hsum]
  · intro vs h
    rw [vdev_activity_contrib, if_neg h]
  · intro vs h
    rw [vdev_activity_contrib, if_neg h]

/-- Claim C9, witness: a three-node tree whose root is actively
initialising (est 100, done 40), one child suspended (contributes 0) and
one child active (est 50, done 10) totals 60 + 0 + 40 = 100. -/
theorem activity_remaining_sum_witness :
    vdev_activity_remaining WaitActivity.init
      (.mk { vtype := "root",
             stats := some { vs_init_state := 1, vs_init_bytes_done := 40,
                             vs_init_bytes_est := 100 } }
        (.cons (.mk { vtype := "disk",
                      stats := some { vs_init_state := 3,
                                      vs_init_bytes_done := 10,
                                      vs_init_bytes_est := 90 } }
                 .nil .nil .nil)
          (.cons (.mk { vtype := "disk",
                        stats := some { vs_init_state := 1,
                                        vs_init_bytes_done := 10,
                                        vs_init_bytes_est := 50 } }
                   .nil .nil .nil) .nil))
        .nil .nil) = some 100 := by
  have h := activity_remaining_sum WaitActivity.init
    (.mk { vtype := "root",
           stats := some { vs_init_state := 1, vs_init_bytes_done := 40,
                           vs_init_bytes_est := 100 } }
      (.cons (.mk { vtype := "disk",
                    stats := some { vs_init_state := 3,
                                    vs_init_bytes_done := 10,
                                    vs_init_bytes_est := 90 } }
               .nil .nil .nil)
        (.cons (.mk { vtype := "disk",
                      stats := some { vs_init_state := 1,
                                      vs_init_bytes_done := 10,
                                      vs_init_bytes_est := 50 } }
                 .nil .nil .nil) .nil))
      .nil .nil)
    (by decide) (by decide) (by decide)
  rw [h.1]
  decide

/-- Iterations on which the loop keeps running do not change the result
of wait_status_loop. -/
theorem wait_loop_skip (pre l : List WaitIter)
    (h : ∀ j ∈ pre, j.continues) :
    wait_status_loop (pre ++ l) = wait_status_loop l := by
  induction pre with
  | nil => rfl
  | cons j pre ih =>
    obtain ⟨h1, h2, h3, h4⟩ := h j (List.mem_cons_self _ _)
    have hrest : ∀ j ∈ pre, j.continues :=
      fun j hj => h j (List.mem_cons_of_mem _ hj)
    show wait_status_loop (j :: (pre ++ l)) = wait_status_loop l
    rw [wait_status_loop, if_neg (by simp [h1, h2, h3]),
      if_neg (by rw [h4]; norm_num [ETIMEDOUT]), if_pos h4]
    exact ih hrest

/-- Claim C10.  The background wait status thread exits with status 1
when opening the pool fails; after any number of successful polling
iterations, it exits with status 0 when a stats refresh reports the pool
missing, and with status 1 when the stats refresh fails without the pool
being missing or when the properties refresh fails. -/
theorem wait_thread_exit_status :
    (∀ iters, wait_status_thread false iters = some 1) ∧
      (∀ (pre : List WaitIter) (it : WaitIter) (rest : List WaitIter),
        (∀ j ∈ pre, j.continues) → it.missing = true →
        wait_status_thread true (pre ++ it :: rest) = some 0) ∧
      (∀ (pre : List WaitIter) (it : WaitIter) (rest : List WaitIter),
        (∀ j ∈ pre, j.continues) → it.stats_rc ≠ 0 → it.missing = false →
        wait_status_thread true (pre ++ it :: rest) = some 1) ∧
      (∀ (pre : List WaitIter) (it : WaitIter) (rest : List WaitIter),
        (∀ j ∈ pre, j.continues) → it.stats_rc = 0 → it.missing = false →
        it.props_rc ≠ 0 →
        wait_status_thread true (pre ++ it :: rest) = some 1) := by
  refine ⟨fun iters => rfl, ?_, ?_, ?_⟩
  · intro pre it rest hpre hm
    rw [wait_status_thread, if_pos rfl, wait_loop_skip pre _ hpre,
      wait_status_loop, if_pos (Or.inr (Or.inl hm))]
    simp [hm]
  · intro pre it rest hpre hs hm
    rw [wait_status_thread, if_pos rfl, wait_loop_skip pre _ hpre,
      wait_status_loop, if_pos (Or.inl hs)]
    simp [hm]
  · intro pre it rest hpre hs hm hp
    rw [wait_status_thread, if_pos rfl, wait_loop_skip pre _ hpre,
      wait_status_loop, if_pos (Or.inr (Or.inr hp))]
    simp [hm]

/-- Claim C10, witness: after one successful polling iteration, a
missing report exits with 0, a failed stats refresh with 1, a failed
properties refresh with 1; a failed pool open exits with 1. -/
theorem wait_thread_exit_status_witness :
    wait_status_thread false [] = some 1 ∧
      wait_status_thread true
        [⟨0, false, 0, 110⟩, ⟨0, true, 0, 110⟩] = some 0 ∧
      wait_status_thread true
        [⟨0, false, 0, 110⟩, ⟨-1, false, 0, 110⟩] = some 1 ∧
      wait_status_thread true
        [⟨0, false, 0, 110⟩, ⟨0, false, 7, 110⟩] = some 1 := by
  have hpre : ∀ j ∈ ([⟨0, false, 0, 110⟩] : List WaitIter), j.continues := by
    intro j hj
    rw [List.mem_singleton] at hj
    subst hj
    exact ⟨rfl, rfl, rfl, rfl⟩
  refine ⟨wait_thread_exit_status.1 [], ?_, ?_, ?_⟩
  · exact wait_thread_exit_status.2.1 [⟨0, false, 0, 110⟩] ⟨0, true, 0, 110⟩ []
      hpre rfl
  · exact wait_thread_exit_status.2.2.1 [⟨0, false, 0, 110⟩]
      ⟨-1, false, 0, 110⟩ [] hpre (by norm_num) rfl
  · exact wait_thread_exit_status.2.2.2 [⟨0, false, 0, 110⟩]
      ⟨0, false, 7, 110⟩ [] hpre rfl rfl (by norm_num)

end Zpool
